import Mathlib

/-!
Shallow embedding of `src/smallsh.c`, a small interactive command
interpreter ("smallsh").  Pure functions of the C source (tokenizing,
variable expansion, integer printing) become Lean functions; stateful
code becomes explicit state passing over a `ShellState` record that
mirrors the C global `struct status program_status`.  Output performed
with `write(2)` is modelled as the list of bytes written; collaborator
primitives (`chdir`, `open`, `dup2`) are modelled as explicit function
parameters.  Undefined behaviour reachable in the parser (passing the
NULL result of an exhausted `strtok_r` to `expand_variable`, which
immediately calls `strlen` on it) is modelled with an explicit `crash`
outcome.
-/

namespace Smallsh

/-! ## write_integer (src/smallsh.c lines 575-603)

The C function takes an `int`, writes the byte `'0'` for zero, and
otherwise first counts the decimal digits with repeated division and
then fills a buffer from the least significant digit.  We model the
written bytes as a `List Nat` of byte values.  `Int.tdiv` is C's
truncating division. -/

def count_digits (d : Int) : Nat :=
  if h : 0 < d then count_digits (d.tdiv 10) + 1 else 0
termination_by d.toNat
decreasing_by
  obtain ⟨n, rfl⟩ := Int.eq_ofNat_of_zero_le (le_of_lt h)
  have hn : 0 < n := by exact_mod_cast h
  have ht : (n : Int).tdiv 10 = ((n / 10 : Nat) : Int) := rfl
  rw [ht]
  simpa using Nat.div_lt_self hn (by norm_num)

def digit_loop : Nat → Int → List Nat
  | 0, _ => []
  | k + 1, d => digit_loop k (d.tdiv 10) ++ [(d - d.tdiv 10 * 10 + 48).toNat]

def write_integer (num : Int) : List Nat :=
  if num = 0 then [48] else digit_loop (count_digits num) num

/-! ## Shell state (src/smallsh.c lines 67-77)

`struct status program_status = {false, SUCCESS, 0, 0, NULL, false};`
The background linked list (append at tail, remove first match) is
modelled as a `List Int` of process ids. -/

structure ShellState where
  exit_program : Bool
  exit_status : Int
  kill_signal : Int
  foreground : Int
  background : List Int
  foreground_only : Bool
deriving DecidableEq

def init_state : ShellState :=
  { exit_program := false, exit_status := 0, kill_signal := 0,
    foreground := 0, background := [], foreground_only := false }

/-- Bytes of a character list, as written by `write(2)`. -/
def ascii (l : List Char) : List Nat := l.map Char.toNat

def exit_value_text : List Char :=
  ['e', 'x', 'i', 't', ' ', 'v', 'a', 'l', 'u', 'e', ' ']

def terminated_text : List Char :=
  ['t', 'e', 'r', 'm', 'i', 'n', 'a', 't', 'e', 'd', ' ', 'b', 'y', ' ',
   's', 'i', 'g', 'n', 'a', 'l', ' ']

/-! ## report_status (src/smallsh.c lines 319-331) -/

def report_status (st : ShellState) : List Nat :=
  (if st.kill_signal ≠ 0 then
    ascii terminated_text ++ write_integer st.kill_signal
  else
    ascii exit_value_text ++ write_integer st.exit_status) ++ [10]

/-! ## Background process list (src/smallsh.c lines 509-567) -/

def push_background_process (st : ShellState) (pid : Int) : ShellState :=
  { st with background := st.background ++ [pid] }

/-- Remove the first occurrence of `pid`; `none` when absent. -/
def remove_first : List Int → Int → Option (List Int)
  | [], _ => none
  | x :: rest, pid =>
    if x = pid then some rest else (remove_first rest pid).map (x :: ·)

def pop_background_process (st : ShellState) (pid : Int) :
    Bool × ShellState :=
  match remove_first st.background pid with
  | some l => (true, { st with background := l })
  | none => (false, st)

/-! ## handle_sigchld, foreground branch (src/smallsh.c lines 461-477)

The reaped wait status is either a normal exit (`WIFEXITED`, carrying
`WEXITSTATUS`) or a termination by signal (`WIFSIGNALED`, carrying
`WTERMSIG`).  The handler records the outcome into the two status
fields, clears the foreground slot, and on the signal path also calls
`report_status`.  The second component is the byte output. -/

inductive ExitMethod
  | exited (code : Int)
  | signaled (sig : Int)
deriving DecidableEq

def record_foreground (st : ShellState) (m : ExitMethod) :
    ShellState × List Nat :=
  match m with
  | .exited code =>
    ({ st with exit_status := code, kill_signal := 0, foreground := 0 }, [])
  | .signaled sig =>
    let st' := { st with kill_signal := sig, exit_status := 0 }
    ({ st' with foreground := 0 }, report_status st')

/-! ## Variable expansion (src/smallsh.c lines 233-267)

`expand_variable` repeatedly finds the first occurrence of `"$$"` with
`strstr`, splits the string around it, and splices in the decimal
digits of `getpid()` with `sprintf`, rescanning the result from the
start.  The loop runs while a marker is found; the digit text contains
no dollar sign, so the number of iterations is bounded by the length
of the original string, which we use as fuel. -/

def pid_digits (pid : Nat) : List Char :=
  ((Nat.digits 10 pid).map (fun d => Char.ofNat (48 + d))).reverse

/-- Index of the first occurrence of `"$$"`, as computed by `strstr`. -/
def findMarker : List Char → Option Nat
  | [] => none
  | c :: rest =>
    if c = '$' ∧ rest.head? = some '$' then some 0
    else (findMarker rest).map (· + 1)

/-- Whether the token contains the two-character marker `"$$"`. -/
def has_marker : List Char → Bool
  | [] => false
  | c :: rest => (c == '$' && rest.head? == some '$') || has_marker rest

def expandLoop (pid : Nat) : Nat → List Char → List Char
  | 0, s => s
  | fuel + 1, s =>
    match findMarker s with
    | none => s
    | some i =>
      expandLoop pid fuel (s.take i ++ pid_digits pid ++ s.drop (i + 2))

def expand_variable (pid : Nat) (s : List Char) : List Char :=
  expandLoop pid s.length s

/-! ## Tokenizer (src/smallsh.c lines 148-161)

`strtok_r(input_buffer, " \n", ...)`: split on spaces and newlines,
empty tokens never produced. -/

def isDelim (c : Char) : Bool := c == ' ' || c == '\n'

def tokenizeAux : List Char → List Char → List (List Char)
  | [], acc => if acc.isEmpty then [] else [acc.reverse]
  | c :: rest, acc =>
    if isDelim c then
      if acc.isEmpty then tokenizeAux rest []
      else acc.reverse :: tokenizeAux rest []
    else tokenizeAux rest (c :: acc)

def tokenize (l : List Char) : List (List Char) := tokenizeAux l []

/-! ## Command parsing (src/smallsh.c lines 34-39 and 133-187) -/

structure Command where
  arguments : List (List Char)
  input_file : Option (List Char)
  output_file : Option (List Char)
  background : Bool
deriving DecidableEq

def empty_command : Command :=
  { arguments := [], input_file := none, output_file := none,
    background := false }

/-- Outcome of `get_command`: `failure` is the C function's FAILURE
return for a blank or comment line (the line is discarded); `crash` is
the undefined behaviour reached when a trailing `<` or `>` makes the
parser call `expand_variable(NULL)`, which dereferences the null
pointer in `strlen`. -/
inductive ParseResult
  | failure
  | crash
  | success (cmd : Command)
deriving DecidableEq

def parse_loop (pid : Nat) (fg_only : Bool) :
    List (List Char) → Command → ParseResult
  | [], acc => .success acc
  | t :: rest, acc =>
    if t = ['<'] then
      match rest with
      | [] => .crash
      | f :: r =>
        parse_loop pid fg_only r
          { acc with input_file := some (expand_variable pid f) }
    else if t = ['>'] then
      match rest with
      | [] => .crash
      | f :: r =>
        parse_loop pid fg_only r
          { acc with output_file := some (expand_variable pid f) }
    else if t = ['&'] then
      parse_loop pid fg_only rest { acc with background := !fg_only }
    else
      parse_loop pid fg_only rest
        { acc with arguments := acc.arguments ++ [expand_variable pid t] }

/-- One parsed input line.  The comment test in the C source is
`strncmp(input_buffer, "#", 1) == 0`, i.e. it inspects the first raw
byte of the line, before any whitespace is skipped. -/
def get_command (pid : Nat) (fg_only : Bool) (line : List Char) :
    ParseResult :=
  let tokens := tokenize line
  if line.head? = some '#' ∨ tokens = [] then .failure
  else parse_loop pid fg_only tokens empty_command

/-- Characterization used by the amended background claim: the token
list contains a `"&"` token that is scanned as a background marker
(i.e. not consumed as the filename of a preceding redirection
operator). -/
def amp_marker_seen : List (List Char) → Bool
  | [] => false
  | t :: rest =>
    if t = ['<'] then
      match rest with
      | [] => false
      | _ :: r => amp_marker_seen r
    else if t = ['>'] then
      match rest with
      | [] => false
      | _ :: r => amp_marker_seen r
    else if t = ['&'] then true
    else amp_marker_seen rest

/-! ## Built-in dispatch (src/smallsh.c lines 276-292)

`status` and `exit` are matched with `strcmp`; `cd` is matched with
`strncmp(first_argument, "cd", 2)`, i.e. on the first two characters
only. -/

inductive Dispatch
  | statusCmd
  | cdCmd
  | exitCmd
  | external
deriving DecidableEq

def status_text : List Char := ['s', 't', 'a', 't', 'u', 's']

def exit_text : List Char := ['e', 'x', 'i', 't']

def execute_command (first_argument : List Char) : Dispatch :=
  if first_argument = status_text then .statusCmd
  else if first_argument.take 2 = ['c', 'd'] then .cdCmd
  else if first_argument = exit_text then .exitCmd
  else .external

/-! ## change_directory (src/smallsh.c lines 302-311)

`path = user_command->arguments[1]; if (!path) path = getenv("HOME");
chdir(path);` — the return value of `chdir` is ignored and nothing is
printed.  `getenv` and `chdir` are external collaborators: `env_home`
is the value of `getenv("HOME")` (`none` for NULL) and `chdir_ok`
tells whether the `chdir` call succeeds. -/

structure CdResult where
  attempted : Option (List Char)
  ok : Bool
  output : List (List Char)
  fatal : Bool
deriving DecidableEq

def change_directory (env_home : Option (List Char))
    (chdir_ok : Option (List Char) → Bool) (cmd : Command) : CdResult :=
  let path :=
    match cmd.arguments[1]? with
    | some p => some p
    | none => env_home
  { attempted := path, ok := chdir_ok path, output := [], fatal := false }

/-- Collaborator contract of `chdir`: on success the working directory
becomes the resolved target; on failure it is left unchanged. -/
def cwd_after (resolve : Option (List Char) → List Char)
    (cwd : List Char) (r : CdResult) : List Char :=
  if r.ok then resolve r.attempted else cwd

/-! ## exit_and_cleanup (src/smallsh.c lines 340-346)

The body only calls `reset_command` to free the command buffers; the
remaining work is left as comments ("TO DO: kill all child
processes"), so no termination signal is ever sent.  The result is
the list of process ids that receive a termination signal. -/

def exit_and_cleanup (_st : ShellState) : List Int := []

/-- The children still tracked by the shell state: every background
entry plus the occupant of the foreground slot, if any. -/
def tracked_children (st : ShellState) : List Int :=
  st.background ++ (if st.foreground ≠ 0 then [st.foreground] else [])

/-! ## Redirector (src/smallsh.c lines 614-658)

`redirect(user_command, mode)` with `mode` either `INPUT` (0) or
`OUTPUT` (1): choose the filename from the command; when absent, a
background command falls back to `"/dev/null"` while a foreground
command returns success immediately; then `open` the file and `dup2`
it onto the standard descriptor equal to `mode`.  The file system
collaborator supplies the outcomes of `open` and `dup2`; the action
trace records the calls that were made. -/

def INPUT : Nat := 0

def OUTPUT : Nat := 1

def dev_null : List Char := ['/', 'd', 'e', 'v', '/', 'n', 'u', 'l', 'l']

inductive RedirAction
  | openRead (name : List Char)
  | openWrite (name : List Char)
  | dupOnto (fd : Nat) (target : Nat)
deriving DecidableEq

structure FileSystem where
  openRead : List Char → Option Nat
  openWrite : List Char → Option Nat
  dupOk : Nat → Nat → Bool

def open_and_dup (fs : FileSystem) (filename : List Char) (mode : Nat) :
    Bool × List RedirAction :=
  let fd? := if mode = INPUT then fs.openRead filename
             else fs.openWrite filename
  let openAct := if mode = INPUT then RedirAction.openRead filename
                 else RedirAction.openWrite filename
  match fd? with
  | none => (false, [openAct])
  | some fd => (fs.dupOk fd mode, [openAct, RedirAction.dupOnto fd mode])

def redirect (fs : FileSystem) (cmd : Command) (mode : Nat) :
    Bool × List RedirAction :=
  match (if mode = INPUT then cmd.input_file else cmd.output_file) with
  | some f => open_and_dup fs f mode
  | none =>
    if cmd.background then open_and_dup fs dev_null mode
    else (true, [])

/-! ## handle_sigchld, one reaped child (src/smallsh.c lines 427-479)

Each iteration of the `waitpid(-1, ..., WNOHANG)` loop handles one
reaped child: a pid found in the background list is removed and a
completion message is written; otherwise the child is the foreground
one and its outcome is recorded (see `record_foreground`). -/

def bg_done_exit_text : List Char :=
  ['\n', 'b', 'a', 'c', 'k', 'g', 'r', 'o', 'u', 'n', 'd', ' ',
   'p', 'i', 'd', ' ']

def bg_done_sig_text : List Char :=
  ['b', 'a', 'c', 'k', 'g', 'r', 'o', 'u', 'n', 'd', ' ',
   'p', 'i', 'd', ' ']

def is_done_text : List Char :=
  [' ', 'i', 's', ' ', 'd', 'o', 'n', 'e', ':', ' ']

def handle_sigchld_one (st : ShellState) (pid : Int) (m : ExitMethod) :
    ShellState × List Nat :=
  match pop_background_process st pid with
  | (true, st') =>
    match m with
    | .exited code =>
      (st', ascii bg_done_exit_text ++ write_integer pid ++
        ascii is_done_text ++ ascii exit_value_text ++
        write_integer code ++ [10, 58, 32])
    | .signaled sig =>
      (st', ascii bg_done_sig_text ++ write_integer pid ++
        ascii is_done_text ++ ascii terminated_text ++
        write_integer sig ++ [10])
  | (false, _) => record_foreground st m

/-! ## Main-loop and handler operations on ShellState

One constructor per source operation that runs in the interpreter
process outside `handle_sigchld`, with its effect on the shared
`program_status` (src/smallsh.c: `main`, `get_command`,
`execute_command`, `report_status`, `change_directory`, the `exit`
builtin, `fork_and_execute`'s parent branches, `handle_sigtstp`,
`exit_and_cleanup`). -/

inductive MainOp
  | reportOp
  | cdOp (env_home : Option (List Char))
      (chdir_ok : Option (List Char) → Bool) (cmd : Command)
  | exitBuiltin
  | sigtstpOp
  | parseOp (pid : Nat) (line : List Char)
  | forkBg (pid : Int)
  | forkFg (pid : Int)
  | cleanupOp

def MainOp.apply : MainOp → ShellState → ShellState
  | .reportOp, s => s
  | .cdOp _ _ _, s => s
  | .exitBuiltin, s => { s with exit_program := true }
  | .sigtstpOp, s => { s with foreground_only := !s.foreground_only }
  | .parseOp _ _, s => s
  | .forkBg pid, s => push_background_process s pid
  | .forkFg pid, s => { s with foreground := pid }
  | .cleanupOp, s => s

/-! ## Concrete collaborators and commands used by witnesses -/

def witness_fs : FileSystem :=
  { openRead := fun _ => some 3, openWrite := fun _ => some 4,
    dupOk := fun _ _ => true }

def witness_bg_cmd : Command :=
  { arguments := [['s', 'l', 'e', 'e', 'p']], input_file := none,
    output_file := none, background := true }

def witness_fg_cmd : Command :=
  { arguments := [['s', 'l', 'e', 'e', 'p']], input_file := none,
    output_file := none, background := false }

def cd_bad_cmd : Command :=
  { arguments := [['c', 'd'], ['/', 'n', 'o', 'p', 'e']],
    input_file := none, output_file := none, background := false }

def cd_noarg_cmd : Command :=
  { arguments := [['c', 'd']], input_file := none, output_file := none,
    background := false }

/-! # Theorems -/

/-- Helper: when the boolean marker scan fails, `strstr` finds no
occurrence of `"$$"`. -/
theorem findMarker_eq_none (s : List Char) (h : has_marker s = false) :
    findMarker s = none := by
  induction s with
  | nil => rfl
  | cons c rest ih =>
    simp only [has_marker, Bool.or_eq_false_iff, Bool.and_eq_false_iff] at h
    obtain ⟨h1, h2⟩ := h
    have hcond : ¬(c = '$' ∧ rest.head? = some '$') := by
      rcases h1 with h1 | h1
      · intro hc
        exact absurd hc.1 (by simpa using h1)
      · intro hc
        exact absurd hc.2 (by simpa using h1)
    simp [findMarker, hcond, ih h2]

/-- C9: a token containing no occurrence of the two-character marker
`"$$"` is returned unchanged by `expand_variable`, for every pid. -/
theorem c9_expand_no_marker (pid : Nat) (s : List Char)
    (h : has_marker s = false) : expand_variable pid s = s := by
  have hf := findMarker_eq_none s h
  unfold expand_variable
  cases s.length with
  | zero => rfl
  | succ n => simp [expandLoop, hf]

/-- Witness for C9 at the concrete token `"echo"` and pid 12345. -/
theorem c9_expand_no_marker_witness :
    has_marker ['e', 'c', 'h', 'o'] = false ∧
    expand_variable 12345 ['e', 'c', 'h', 'o'] = ['e', 'c', 'h', 'o'] :=
  ⟨by decide, c9_expand_no_marker 12345 _ (by decide)⟩

/-- C3 (code bug): on the input line `"cat <"`, whose last token is a
dangling redirection operator, `get_command` reaches the undefined
behaviour of `expand_variable(NULL)` (`strlen` on a null pointer)
instead of reporting a parse failure. -/
theorem c3_dangling_redirection_crashes :
    get_command 7 false ['c', 'a', 't', ' ', '<'] = ParseResult.crash := by
  decide

/-- C5 counterexample: the line `" #x"` has `#` as its first
non-whitespace character, yet `get_command` parses it as a command
with argument `"#x"` rather than yielding Skip, because the source
tests only the first raw byte of the line (`strncmp(input_buffer,
"#", 1)`). -/
theorem c5_counterexample :
    (([' ', '#', 'x'].dropWhile isDelim).head? = some '#') ∧
    get_command 7 false [' ', '#', 'x'] =
      ParseResult.success
        { arguments := [['#', 'x']], input_file := none,
          output_file := none, background := false } := by
  decide

/-- C5 amended: a line that is empty or consists only of whitespace,
or whose first character (byte 0, before any whitespace is skipped)
is `#`, yields Skip (`FAILURE`, the line is discarded), regardless of
foreground-only mode. -/
theorem c5_amended_skip (pid : Nat) (fg_only : Bool) (line : List Char)
    (h : line.head? = some '#' ∨ tokenize line = []) :
    get_command pid fg_only line = ParseResult.failure := by
  simp only [get_command]
  rw [if_pos h]

/-- Witness for C5 at a comment line (foreground-only on) and a
whitespace-only line (foreground-only off). -/
theorem c5_amended_skip_witness :
    get_command 3 true ['#', 'b'] = ParseResult.failure ∧
    get_command 3 false [' ', '\n'] = ParseResult.failure :=
  ⟨c5_amended_skip 3 true ['#', 'b'] (Or.inl (by decide)),
   c5_amended_skip 3 false [' ', '\n'] (Or.inr (by decide))⟩

/-- C1 (code bug): with one tracked background child (pid 42), the
`exit` path's `exit_and_cleanup` sends no termination signal at all —
its body only resets the command buffer and leaves the kill as a
"TO DO" comment. -/
theorem c1_exit_sends_no_termination_signal :
    (42 : Int) ∈ tracked_children { init_state with background := [42] } ∧
    exit_and_cleanup { init_state with background := [42] } = [] := by
  constructor
  · simp [tracked_children]
  · rfl

/-- Helper: the background flag of a successfully parsed command is
decided by whether a `"&"` token was scanned as a background marker,
independently of its position in the line. -/
theorem parse_loop_background_eq (pid : Nat) (fg_only : Bool) :
    ∀ (n : Nat) (ts : List (List Char)) (acc cmd : Command),
      ts.length ≤ n →
      parse_loop pid fg_only ts acc = ParseResult.success cmd →
      cmd.background =
        (if amp_marker_seen ts then !fg_only else acc.background) := by
  intro n
  induction n with
  | zero =>
    intro ts acc cmd hlen hp
    match ts with
    | [] =>
      simp only [parse_loop, ParseResult.success.injEq] at hp
      subst hp
      rfl
  | succ n ih =>
    intro ts acc cmd hlen hp
    match ts with
    | [] =>
      simp only [parse_loop, ParseResult.success.injEq] at hp
      subst hp
      rfl
    | t :: rest =>
      rw [parse_loop.eq_def] at hp
      simp only [] at hp
      rw [amp_marker_seen.eq_def]
      simp only []
      by_cases h1 : t = ['<']
      · simp only [if_pos h1] at hp ⊢
        match rest with
        | [] => exact absurd hp (by simp)
        | f :: r =>
          have hr : r.length ≤ n := by
            simp only [List.length_cons] at hlen
            omega
          exact ih r { acc with input_file := some (expand_variable pid f) }
            cmd hr hp
      · simp only [if_neg h1] at hp ⊢
        by_cases h2 : t = ['>']
        · simp only [if_pos h2] at hp ⊢
          match rest with
          | [] => exact absurd hp (by simp)
          | f :: r =>
            have hr : r.length ≤ n := by
              simp only [List.length_cons] at hlen
              omega
            exact ih r { acc with output_file := some (expand_variable pid f) }
              cmd hr hp
        · simp only [if_neg h2] at hp ⊢
          by_cases h3 : t = ['&']
          · simp only [if_pos h3] at hp ⊢
            have hr : rest.length ≤ n := by
              simp only [List.length_cons] at hlen
              omega
            have := ih rest { acc with background := !fg_only } cmd hr hp
            rw [this]
            split <;> rfl
          · simp only [if_neg h3] at hp ⊢
            have hr : rest.length ≤ n := by
              simp only [List.length_cons] at hlen
              omega
            exact ih rest
              { acc with arguments := acc.arguments ++ [expand_variable pid t] }
              cmd hr hp

/-- C2 counterexample: in the line `"a & b"` the token `"&"` is not
the final token, yet the parsed command's background flag is true
(foreground-only mode off): the source honors `&` wherever it
appears. -/
theorem c2_counterexample :
    (tokenize ['a', ' ', '&', ' ', 'b']).getLast? ≠ some ['&'] ∧
    get_command 7 false ['a', ' ', '&', ' ', 'b'] =
      ParseResult.success
        { arguments := [['a'], ['b']], input_file := none,
          output_file := none, background := true } := by
  decide

/-- C2 amended: for every successfully parsed line, the background
flag is true iff some `"&"` token is scanned as a background marker
(i.e. not consumed as the filename of a preceding redirection
operator) — regardless of its position — and foreground-only mode is
off. -/
theorem c2_amended_background (pid : Nat) (fg_only : Bool)
    (line : List Char) (cmd : Command)
    (h : get_command pid fg_only line = ParseResult.success cmd) :
    cmd.background = (amp_marker_seen (tokenize line) && !fg_only) := by
  simp only [get_command] at h
  by_cases hc : line.head? = some '#' ∨ tokenize line = []
  · rw [if_pos hc] at h
    exact absurd h (by simp)
  · rw [if_neg hc] at h
    have := parse_loop_background_eq pid fg_only (tokenize line).length
      (tokenize line) empty_command cmd le_rfl h
    rw [this]
    cases hA : amp_marker_seen (tokenize line) <;> simp [empty_command]

/-- Witness for C2 (amended) at the line `"a &"` with foreground-only
mode off. -/
theorem c2_amended_background_witness :
    ({ arguments := [['a']], input_file := none, output_file := none,
       background := true } : Command).background =
      (amp_marker_seen (tokenize ['a', ' ', '&']) && !false) :=
  c2_amended_background 7 false ['a', ' ', '&'] _ (by decide)

/-- C4: after the child-terminated handler reaps a foreground child,
exactly one of the two status fields is active (the discriminator is
`kill_signal ≠ 0`): a normal exit with code N leaves `kill_signal`
zero and the status report is `"exit value N\n"`; a death by signal S
(signals are ≥ 1) leaves `exit_status` zero, `kill_signal = S ≠ 0`,
and the status report is `"terminated by signal S\n"` — never both. -/
theorem c4_status_mutual_exclusion (st : ShellState) (code sig : Int)
    (hsig : 1 ≤ sig) :
    ((record_foreground st (ExitMethod.exited code)).1.kill_signal = 0 ∧
     (record_foreground st (ExitMethod.exited code)).1.exit_status = code ∧
     report_status (record_foreground st (ExitMethod.exited code)).1 =
       ascii exit_value_text ++ write_integer code ++ [10]) ∧
    ((record_foreground st (ExitMethod.signaled sig)).1.kill_signal = sig ∧
     (record_foreground st (ExitMethod.signaled sig)).1.kill_signal ≠ 0 ∧
     (record_foreground st (ExitMethod.signaled sig)).1.exit_status = 0 ∧
     report_status (record_foreground st (ExitMethod.signaled sig)).1 =
       ascii terminated_text ++ write_integer sig ++ [10]) := by
  have hne : sig ≠ 0 := by omega
  refine ⟨⟨rfl, rfl, ?_⟩, rfl, hne, rfl, ?_⟩
  · simp [record_foreground, report_status, List.append_assoc]
  · simp [record_foreground, report_status, hne, List.append_assoc]

/-- Witness for C4: a foreground child exiting with code 7 and one
killed by signal 9, starting from the initial shell state. -/
theorem c4_status_mutual_exclusion_witness :
    report_status (record_foreground init_state (ExitMethod.exited 7)).1 =
      ascii exit_value_text ++ write_integer 7 ++ [10] ∧
    report_status (record_foreground init_state (ExitMethod.signaled 9)).1 =
      ascii terminated_text ++ write_integer 9 ++ [10] :=
  ⟨(c4_status_mutual_exclusion init_state 7 9 (by norm_num)).1.2.2,
   (c4_status_mutual_exclusion init_state 7 9 (by norm_num)).2.2.2.2⟩

/-- C6 (frame): every interpreter operation outside the
child-terminated handler preserves `exit_status` and `kill_signal`;
the foreground slot is modified only by the foreground spawn, which
sets it to the (positive) child pid and never clears it. -/
theorem c6_frame (op : MainOp) (s : ShellState) :
    ((op.apply s).exit_status = s.exit_status ∧
     (op.apply s).kill_signal = s.kill_signal) ∧
    ((∀ p : Int, op ≠ MainOp.forkFg p) →
      (op.apply s).foreground = s.foreground) ∧
    (∀ p : Int, op = MainOp.forkFg p → 0 < p →
      (op.apply s).foreground = p ∧ (op.apply s).foreground ≠ 0) := by
  cases op with
  | forkFg pid =>
    refine ⟨⟨rfl, rfl⟩, ?_, ?_⟩
    · intro h
      exact absurd rfl (h pid)
    · intro p hp hpos
      cases hp
      exact ⟨rfl, by simp [MainOp.apply]; omega⟩
  | _ =>
    refine ⟨⟨rfl, rfl⟩, fun _ => rfl, ?_⟩
    intro p hp
    exact absurd hp (by simp [MainOp.apply])

/-- Witness for C6: spawning foreground pid 5 from the initial state
sets the foreground slot to 5 and does not clear it. -/
theorem c6_frame_witness :
    ((MainOp.forkFg 5).apply init_state).foreground = 5 ∧
    ((MainOp.forkFg 5).apply init_state).foreground ≠ 0 :=
  (c6_frame (MainOp.forkFg 5) init_state).2.2 5 rfl (by norm_num)

/-- C7: for a background child, an unspecified input (resp. output)
path is rebound to `/dev/null` — the redirector opens the null device
and duplicates it onto the standard descriptor — while for a
foreground child an unspecified stream is left untouched (no open, no
dup, success). -/
theorem c7_redirect_null_device (fs : FileSystem) (cmd : Command) :
    (cmd.background = true → cmd.input_file = none →
      redirect fs cmd INPUT = open_and_dup fs dev_null INPUT ∧
      ∀ fd, fs.openRead dev_null = some fd →
        (redirect fs cmd INPUT).2 =
          [RedirAction.openRead dev_null, RedirAction.dupOnto fd INPUT]) ∧
    (cmd.background = true → cmd.output_file = none →
      redirect fs cmd OUTPUT = open_and_dup fs dev_null OUTPUT ∧
      ∀ fd, fs.openWrite dev_null = some fd →
        (redirect fs cmd OUTPUT).2 =
          [RedirAction.openWrite dev_null, RedirAction.dupOnto fd OUTPUT]) ∧
    (cmd.background = false → cmd.input_file = none →
      redirect fs cmd INPUT = (true, [])) ∧
    (cmd.background = false → cmd.output_file = none →
      redirect fs cmd OUTPUT = (true, [])) := by
  refine ⟨?_, ?_, ?_, ?_⟩ <;> intro hbg hfile
  · have h1 : redirect fs cmd INPUT = open_and_dup fs dev_null INPUT := by
      simp [redirect, INPUT, hfile, hbg]
    refine ⟨h1, fun fd hfd => ?_⟩
    rw [h1]
    simp [open_and_dup, INPUT, hfd]
  · have h1 : redirect fs cmd OUTPUT = open_and_dup fs dev_null OUTPUT := by
      simp [redirect, INPUT, OUTPUT, hfile, hbg]
    refine ⟨h1, fun fd hfd => ?_⟩
    rw [h1]
    simp [open_and_dup, INPUT, OUTPUT, hfd]
  · simp [redirect, INPUT, hfile, hbg]
  · simp [redirect, INPUT, OUTPUT, hfile, hbg]

/-- Witness for C7: a background `sleep` with no redirections gets
`/dev/null` opened (fd 3) and duplicated onto stdin, while the same
foreground command leaves stdin untouched. -/
theorem c7_redirect_null_device_witness :
    (redirect witness_fs witness_bg_cmd INPUT).2 =
      [RedirAction.openRead dev_null, RedirAction.dupOnto 3 INPUT] ∧
    redirect witness_fs witness_fg_cmd INPUT = (true, []) :=
  ⟨((c7_redirect_null_device witness_fs witness_bg_cmd).1 rfl rfl).2 3 rfl,
   (c7_redirect_null_device witness_fs witness_fg_cmd).2.2.1 rfl rfl⟩

/-- C8 counterexample: `cd /nope` when `chdir` fails — the source
ignores the return value of `chdir` and prints nothing, so the
failure is not reported to the user. -/
theorem c8_counterexample :
    (change_directory none (fun _ => false) cd_bad_cmd).ok = false ∧
    (change_directory none (fun _ => false) cd_bad_cmd).output = [] := by
  decide

/-- C8 amended: `cd` with no argument targets the home directory
(moving there when `chdir` succeeds); a path that cannot be entered
leaves the working directory unchanged and is never fatal to the
interpreter, but the failure is silent — no report is printed. -/
theorem c8_amended_cd (env_home : Option (List Char))
    (chdir_ok : Option (List Char) → Bool) (cmd : Command)
    (resolve : Option (List Char) → List Char) (cwd : List Char) :
    (cmd.arguments[1]? = none →
      (change_directory env_home chdir_ok cmd).attempted = env_home) ∧
    ((change_directory env_home chdir_ok cmd).ok = false →
      cwd_after resolve cwd (change_directory env_home chdir_ok cmd) = cwd) ∧
    (cmd.arguments[1]? = none → chdir_ok env_home = true →
      cwd_after resolve cwd (change_directory env_home chdir_ok cmd) =
        resolve env_home) ∧
    (change_directory env_home chdir_ok cmd).fatal = false ∧
    (change_directory env_home chdir_ok cmd).output = [] := by
  refine ⟨?_, ?_, ?_, rfl, rfl⟩
  · intro h
    simp [change_directory, h]
  · intro h
    simp [cwd_after, h]
  · intro h hok
    simp [cwd_after, change_directory, h, hok]

/-- Witness for C8: `cd` with no argument and home directory `"/h"`
moves the working directory to `"/h"`; a failing `chdir` for
`cd /nope` leaves the working directory `"/t"` unchanged. -/
theorem c8_amended_cd_witness :
    cwd_after (fun p => p.getD []) ['/', 't']
      (change_directory (some ['/', 'h'])
        (fun p => decide (p = some ['/', 'h'])) cd_noarg_cmd) = ['/', 'h'] ∧
    cwd_after (fun p => p.getD []) ['/', 't']
      (change_directory (some ['/', 'h'])
        (fun _ => false) cd_bad_cmd) = ['/', 't'] :=
  ⟨(c8_amended_cd (some ['/', 'h']) (fun p => decide (p = some ['/', 'h']))
      cd_noarg_cmd (fun p => p.getD []) ['/', 't']).2.2.1 rfl (by decide),
   (c8_amended_cd (some ['/', 'h']) (fun _ => false)
      cd_bad_cmd (fun p => p.getD []) ['/', 't']).2.1 rfl⟩

/-- Helper: C's truncating division by 10 on a nonnegative value is
Nat division. -/
theorem tdiv_ten_ofNat (n : Nat) :
    (n : Int).tdiv 10 = ((n / 10 : Nat) : Int) := rfl

/-- Helper: `getLast?` commutes with `map`. -/
theorem getLast?_map_eq {α β : Type} (f : α → β) :
    ∀ l : List α, (l.map f).getLast? = (l.getLast?).map f
  | [] => rfl
  | [_] => rfl
  | a :: b :: l => by
    have h := getLast?_map_eq f (b :: l)
    simpa using h

/-- Helper: the digit-building loop of `write_integer`, run for the
counted number of digits, produces the base-10 digits of a positive
value, most significant first, as ASCII bytes. -/
theorem digit_loop_count (n : Nat) :
    digit_loop (count_digits (n : Int)) (n : Int) =
      ((Nat.digits 10 n).map (fun d => d + 48)).reverse := by
  induction n using Nat.strong_induction_on with
  | _ n ih =>
    rcases Nat.eq_zero_or_pos n with rfl | hn
    · simp [count_digits.eq_def, digit_loop]
    · have h0 : (0 : Int) < (n : Int) := by exact_mod_cast hn
      rw [count_digits.eq_def, dif_pos h0, tdiv_ten_ofNat]
      simp only [digit_loop]
      rw [tdiv_ten_ofNat, ih (n / 10) (Nat.div_lt_self hn (by norm_num))]
      rw [Nat.digits_def' (by norm_num : (1 : ℕ) < 10) hn]
      rw [List.map_cons, List.reverse_cons]
      have hb : ((n : Int) - ((n / 10 : Nat) : Int) * 10 + 48).toNat =
          n % 10 + 48 := by omega
      rw [hb]

/-- C10: for every nonnegative `num`, `write_integer` writes exactly
the ASCII bytes of the decimal representation of `num` — the byte
`'0'` when `num` is zero, otherwise the base-10 digits most
significant first — with every byte a decimal digit (no sign) and no
leading zero, and nothing else. -/
theorem c10_write_integer (num : Int) (h : 0 ≤ num) :
    write_integer num =
      (if num = 0 then [48]
       else ((Nat.digits 10 num.toNat).map (fun d => d + 48)).reverse) ∧
    (∀ b ∈ write_integer num, 48 ≤ b ∧ b ≤ 57) ∧
    (num ≠ 0 → (write_integer num).head? ≠ some 48) := by
  obtain ⟨n, rfl⟩ := Int.eq_ofNat_of_zero_le h
  have hmain : write_integer (n : Int) =
      (if (n : Int) = 0 then [48]
       else ((Nat.digits 10 n).map (fun d => d + 48)).reverse) := by
    unfold write_integer
    by_cases hz : (n : Int) = 0
    · rw [if_pos hz, if_pos hz]
    · rw [if_neg hz, if_neg hz]
      exact digit_loop_count n
  refine ⟨hmain, ?_, ?_⟩
  · intro b hb
    rw [hmain] at hb
    by_cases hz : (n : Int) = 0
    · rw [if_pos hz] at hb
      simp only [List.mem_singleton] at hb
      omega
    · rw [if_neg hz] at hb
      simp only [List.mem_reverse, List.mem_map] at hb
      obtain ⟨d, hd, rfl⟩ := hb
      have := Nat.digits_lt_base (by norm_num) hd
      omega
  · intro hz
    have hn0 : n ≠ 0 := by exact_mod_cast hz
    rw [hmain, if_neg hz, List.head?_reverse, getLast?_map_eq]
    have hne : Nat.digits 10 n ≠ [] :=
      Nat.digits_ne_nil_iff_ne_zero.mpr hn0
    rw [List.getLast?_eq_getLast _ hne]
    simp only [Option.map_some', Option.some.injEq]
    intro hcon
    have hcon2 : (Nat.digits 10 n).getLast hne + 48 = 48 :=
      Option.some.inj hcon
    have h0 : (Nat.digits 10 n).getLast hne = 0 := by omega
    exact Nat.getLast_digit_ne_zero 10 hn0 h0

/-- Witness for C10 at the concrete value 407. -/
theorem c10_write_integer_witness :
    (0 : Int) ≤ 407 ∧
    write_integer 407 =
      (if (407 : Int) = 0 then [48]
       else ((Nat.digits 10 (407 : Int).toNat).map (fun d => d + 48)).reverse) :=
  ⟨by decide, (c10_write_integer 407 (by decide)).1⟩

end Smallsh
